import Mathlib

/-!
Verification of the QLauncher dashboard backend (`main.py`).

The development shallowly embeds the program: JSON values are an inductive
type, the file system and the remote weather API are explicit parameters
(file contents with modification times, an oracle for the single outbound
HTTP request), and Python exceptions are `Except.error` values.  Each
function keeps the name of the Python function it embeds.
-/

set_option autoImplicit false

namespace QLauncher

/-- JSON values as produced by Python `json.loads`.  Numbers are modelled as
integers (the program never inspects numeric payloads, so float formatting
is irrelevant to every property below); objects keep insertion order, as
Python dicts do. -/
inductive Json where
  | null
  | bool (b : Bool)
  | num (n : Int)
  | str (s : String)
  | arr (elems : List Json)
  | obj (fields : List (String × Json))

/-- The one-key error mapping the program uses to signal failures as data. -/
def errObj (msg : String) : Json :=
  Json.obj [("error", Json.str msg)]

/-- Lower-case hexadecimal digit, as Python uses in unicode escapes. -/
def hexDigit (n : Nat) : Char :=
  if n < 10 then Char.ofNat (48 + n) else Char.ofNat (87 + n)

/-- Escape one character the way Python `json.dump(..., ensure_ascii=False)`
does: only the quote, the backslash and control characters are escaped;
every other character, non-ASCII included, passes through verbatim. -/
def escChar (c : Char) : String :=
  if c.toNat = 34 then "\\\""
  else if c.toNat = 92 then "\\\\"
  else if c.toNat = 10 then "\\n"
  else if c.toNat = 9 then "\\t"
  else if c.toNat = 13 then "\\r"
  else if c.toNat = 8 then "\\b"
  else if c.toNat = 12 then "\\f"
  else if c.toNat < 32 then
    "\\u00" ++ String.singleton (hexDigit (c.toNat / 16)) ++
      String.singleton (hexDigit (c.toNat % 16))
  else String.singleton c

/-- Escape every character of a string body in order. -/
def escString : List Char → String
  | [] => ""
  | c :: cs => escChar c ++ escString cs

/-- Serialize a string literal with quotes, as `json.dump` does. -/
def dumpStr (s : String) : String :=
  "\"" ++ escString s.data ++ "\""

/-- Decimal digit character. -/
def digitChar (n : Nat) : Char := Char.ofNat (48 + n)

/-- Decimal digits of a natural number, most significant first.  The fuel
argument only drives the recursion; `natDigits` supplies enough of it. -/
def natDigitsGo : Nat → Nat → List Char
  | 0, _ => []
  | fuel + 1, n =>
    if n < 10 then [digitChar n]
    else natDigitsGo fuel (n / 10) ++ [digitChar (n % 10)]

/-- Decimal digits of a natural number. -/
def natDigits (n : Nat) : List Char := natDigitsGo (n + 1) n

/-- The decimal representation of an integer, exactly the characters Python
emits for a JSON integer. -/
def intRepr (n : Int) : String :=
  if n < 0 then "-" ++ String.mk (natDigits n.natAbs)
  else String.mk (natDigits n.natAbs)

mutual

/-- Model of Python `json.dumps(data, ensure_ascii=False)` with the default
separators `", "` and `": "` (the program never passes `indent` or
`separators`). -/
def Json.dumps : Json → String
  | Json.null => "null"
  | Json.bool true => "true"
  | Json.bool false => "false"
  | Json.num n => intRepr n
  | Json.str s => dumpStr s
  | Json.arr xs => "[" ++ dumpsList xs ++ "]"
  | Json.obj fs => "\x7b" ++ dumpsFields fs ++ "\x7d"

/-- Array elements joined by `", "`. -/
def dumpsList : List Json → String
  | [] => ""
  | [x] => Json.dumps x
  | x :: y :: rest => Json.dumps x ++ ", " ++ dumpsList (y :: rest)

/-- Object members `key: value` joined by `", "`. -/
def dumpsFields : List (String × Json) → String
  | [] => ""
  | [p] => dumpStr p.1 ++ ": " ++ Json.dumps p.2
  | p :: q :: rest => dumpStr p.1 ++ ": " ++ Json.dumps p.2 ++ ", " ++ dumpsFields (q :: rest)

end

/-- JSON whitespace skipping. -/
def skipWs : List Char → List Char
  | [] => []
  | c :: cs =>
    if c.toNat = 32 || c.toNat = 10 || c.toNat = 9 || c.toNat = 13 then skipWs cs
    else c :: cs

/-- Value of a hexadecimal digit. -/
def hexVal (c : Char) : Option Nat :=
  if 48 ≤ c.toNat ∧ c.toNat ≤ 57 then some (c.toNat - 48)
  else if 97 ≤ c.toNat ∧ c.toNat ≤ 102 then some (c.toNat - 87)
  else if 65 ≤ c.toNat ∧ c.toNat ≤ 70 then some (c.toNat - 55)
  else none

/-- Single-character JSON escapes. -/
def unescChar (c : Char) : Option Char :=
  if c.toNat = 34 then some c
  else if c.toNat = 92 then some c
  else if c.toNat = 47 then some c
  else if c = 'n' then some (Char.ofNat 10)
  else if c = 't' then some (Char.ofNat 9)
  else if c = 'r' then some (Char.ofNat 13)
  else if c = 'b' then some (Char.ofNat 8)
  else if c = 'f' then some (Char.ofNat 12)
  else none

/-- Read the body of a JSON string literal after its opening quote; returns
the decoded string and the input after the closing quote. -/
def parseStringBody : List Char → Option (String × List Char)
  | [] => none
  | c :: cs =>
    if c.toNat = 34 then some ("", cs)
    else if c.toNat = 92 then
      match cs with
      | 'u' :: h1 :: h2 :: h3 :: h4 :: cs4 =>
        match hexVal h1, hexVal h2, hexVal h3, hexVal h4 with
        | some a, some b, some d, some e =>
          match parseStringBody cs4 with
          | some (s, rest) =>
            some (String.singleton (Char.ofNat (((a * 16 + b) * 16 + d) * 16 + e)) ++ s, rest)
          | none => none
        | _, _, _, _ => none
      | e :: cs2 =>
        match unescChar e with
        | some c2 =>
          match parseStringBody cs2 with
          | some (s, rest) => some (String.singleton c2 ++ s, rest)
          | none => none
        | none => none
      | [] => none
    else
      match parseStringBody cs with
      | some (s, rest) => some (String.singleton c ++ s, rest)
      | none => none

/-- Consume an expected literal character sequence. -/
def expectChars : List Char → List Char → Option (List Char)
  | [], cs => some cs
  | _ :: _, [] => none
  | e :: es, c :: cs => if c = e then expectChars es cs else none

/-- Split a leading run of decimal digits off a character list. -/
def takeDigits : List Char → List Char × List Char
  | [] => ([], [])
  | c :: cs =>
    if c.isDigit then
      let p := takeDigits cs
      (c :: p.1, p.2)
    else ([], c :: cs)

/-- Numeric value of a digit run. -/
def digitsToNat (ds : List Char) : Nat :=
  ds.foldl (fun a c => a * 10 + (c.toNat - 48)) 0

mutual

/-- Fueled recursive-descent parser for one JSON value (model of the
grammar Python `json.loads` accepts; numbers are restricted to integers,
which covers everything the program itself ever writes or the properties
below ever read). -/
def parseVal : Nat → List Char → Option (Json × List Char)
  | 0, _ => none
  | fuel + 1, cs =>
    match skipWs cs with
    | c :: rest =>
      if c.toNat = 110 then
        match expectChars (['u', 'l', 'l']) rest with
        | some rest2 => some (Json.null, rest2)
        | none => none
      else if c.toNat = 116 then
        match expectChars (['r', 'u', 'e']) rest with
        | some rest2 => some (Json.bool true, rest2)
        | none => none
      else if c.toNat = 102 then
        match expectChars (['a', 'l', 's', 'e']) rest with
        | some rest2 => some (Json.bool false, rest2)
        | none => none
      else if c.toNat = 34 then
        match parseStringBody rest with
        | some (s, rest2) => some (Json.str s, rest2)
        | none => none
      else if c.toNat = 91 then
        match skipWs rest with
        | d :: rest2 =>
          if d.toNat = 93 then some (Json.arr [], rest2)
          else
            match parseArrItems fuel (d :: rest2) with
            | some (xs, rest3) => some (Json.arr xs, rest3)
            | none => none
        | [] => none
      else if c.toNat = 123 then
        match skipWs rest with
        | d :: rest2 =>
          if d.toNat = 125 then some (Json.obj [], rest2)
          else
            match parseObjItems fuel (d :: rest2) with
            | some (fs, rest3) => some (Json.obj fs, rest3)
            | none => none
        | [] => none
      else if c.toNat = 45 then
        match takeDigits rest with
        | ([], _) => none
        | (ds, rest2) => some (Json.num (-(digitsToNat ds : Int)), rest2)
      else if c.isDigit then
        match takeDigits (c :: rest) with
        | ([], _) => none
        | (ds, rest2) => some (Json.num (digitsToNat ds : Int), rest2)
      else none
    | [] => none

/-- One or more comma-separated array elements, then the closing bracket. -/
def parseArrItems : Nat → List Char → Option (List Json × List Char)
  | 0, _ => none
  | fuel + 1, cs =>
    match parseVal fuel cs with
    | some (x, rest) =>
      match skipWs rest with
      | d :: rest2 =>
        if d.toNat = 93 then some ([x], rest2)
        else if d.toNat = 44 then
          match parseArrItems fuel rest2 with
          | some (xs, rest3) => some (x :: xs, rest3)
          | none => none
        else none
      | [] => none
    | none => none

/-- One or more comma-separated object members, then the closing brace. -/
def parseObjItems : Nat → List Char → Option (List (String × Json) × List Char)
  | 0, _ => none
  | fuel + 1, cs =>
    match skipWs cs with
    | c :: rest =>
      if c.toNat = 34 then
        match parseStringBody rest with
        | some (k, rest2) =>
          match skipWs rest2 with
          | d :: rest3 =>
            if d.toNat = 58 then
              match parseVal fuel rest3 with
              | some (v, rest4) =>
                match skipWs rest4 with
                | e :: rest5 =>
                  if e.toNat = 125 then some ([(k, v)], rest5)
                  else if e.toNat = 44 then
                    match parseObjItems fuel rest5 with
                    | some (fs, rest6) => some ((k, v) :: fs, rest6)
                    | none => none
                  else none
                | [] => none
              | none => none
            else none
          | [] => none
        | none => none
      else none
    | [] => none

end

/-- Model of Python `json.loads` (and of `json.load` applied to a file whose
content is the given string): `some` on a well-formed document, `none` where
Python raises `json.JSONDecodeError`. -/
def json_loads (s : String) : Option Json :=
  match parseVal (s.length + 1) s.data with
  | some (j, rest) => if (skipWs rest).isEmpty then some j else none
  | none => none

/-- True when the list does not begin with a decimal digit, so that a
preceding number token cannot absorb it. -/
def noDigitHead : List Char → Bool
  | [] => true
  | c :: _ => !c.isDigit

mutual

/-- Fuel sufficient for `parseVal` on the serialization of a value. -/
def needVal : Json → Nat
  | Json.arr xs => 1 + needList xs
  | Json.obj fs => 1 + needFields fs
  | _ => 1

/-- Fuel sufficient for `parseArrItems` on serialized array elements. -/
def needList : List Json → Nat
  | [] => 0
  | x :: xs => 1 + needVal x + needList xs

/-- Fuel sufficient for `parseObjItems` on serialized object members. -/
def needFields : List (String × Json) → Nat
  | [] => 0
  | p :: fs => 1 + needVal p.2 + needFields fs

end

/-! ### Python dictionary and `int()` helpers -/

/-- Python `dict.get(key)` on a string-to-string dict, represented as an
association list in insertion order (configparser sections never hold
duplicate keys, so first-match lookup is exact). -/
def pyGet (l : List (String × String)) (k : String) : Option String :=
  (l.find? (fun p => p.1 == k)).map (fun p => p.2)

/-- Python `dict.get(key, default)`. -/
def pyGetD (l : List (String × String)) (k d : String) : String :=
  (pyGet l k).getD d

/-- Python `str.isspace`-style whitespace test for `int()` stripping. -/
def pyWs (c : Char) : Bool :=
  c.toNat = 32 || c.toNat = 9 || c.toNat = 10 || c.toNat = 13 || c.toNat = 11 || c.toNat = 12

/-- Model of Python `int(s)` on a decimal string: surrounding whitespace is
stripped, an optional sign precedes a non-empty digit run; `none` where
Python raises `ValueError`. -/
def pyInt (s : String) : Option Int :=
  let cs := (s.data.dropWhile pyWs).reverse.dropWhile pyWs |>.reverse
  match cs with
  | '-' :: ds =>
    if !ds.isEmpty && ds.all Char.isDigit then some (-(digitsToNat ds : Int)) else none
  | '+' :: ds =>
    if !ds.isEmpty && ds.all Char.isDigit then some ((digitsToNat ds : Int)) else none
  | ds =>
    if !ds.isEmpty && ds.all Char.isDigit then some ((digitsToNat ds : Int)) else none

/-! ### Config store (`load_ini`, lines 27-53, and the startup block) -/

/-- The state of `config.ini` as `configparser.ConfigParser.read` sees it.
`read` silently ignores a missing file; on present-but-malformed content
(for example a line before any section header) it raises a
`configparser.Error` such as `MissingSectionHeaderError`, which `load_ini`
does not catch. A well-formed file is its list of sections, each a list of
key/value pairs with original casing (the program sets
`parser.optionxform = str`). -/
inductive IniFileState where
  | absent
  | wellFormed (sections : List (String × List (String × String)))
  | malformed (msg : String)

/-- The global `config` dictionary after `load_ini`: the four fixed
sections. -/
structure Config where
  Settings : List (String × String)
  Apps : List (String × String)
  Links : List (String × String)
  Socials : List (String × String)

/-- The globals `load_ini` assigns: `config`, `JSON_FILE_YOUTUBE`,
`JSON_FILE_WEATHER`. -/
structure LoadedConfig where
  config : Config
  jsonFileYoutube : String
  jsonFileWeather : String

/-- `dict(parser[name]) if name in parser else STR` for one section. -/
def sectionLookup (sections : List (String × List (String × String)))
    (name : String) : List (String × String) :=
  ((sections.find? (fun p => p.1 == name)).map (fun p => p.2)).getD []

/-- The section extraction and global assignments of `load_ini` on an
already-read parser state. -/
def mkLoaded (sections : List (String × List (String × String))) : LoadedConfig :=
  let cfg : Config :=
    ⟨sectionLookup sections ("AppSettings"), sectionLookup sections ("Apps"),
      sectionLookup sections ("Links"), sectionLookup sections ("Socials")⟩
  ⟨cfg, pyGetD cfg.Settings ("YoutubeJSON") ("youtube_data.json"),
    pyGetD cfg.Settings ("WeatherJSON") ("weather_data.json")⟩

/-- `load_ini` (lines 27-53): read `config.ini` and rebuild the global
configuration. `Except.error` marks an uncaught `configparser` exception. -/
def load_ini (file : IniFileState) : Except String LoadedConfig :=
  match file with
  | IniFileState.absent => Except.ok (mkLoaded [])
  | IniFileState.wellFormed sections => Except.ok (mkLoaded sections)
  | IniFileState.malformed e => Except.error e

/-- The `__main__` block (lines 322-330): bind address and port with
defaults `0.0.0.0` and `5000`; a port value `int()` rejects falls back to
`5000`. -/
def serverBind (settings : List (String × String)) : String × Int :=
  let ip := pyGetD settings ("IP") ("0.0.0.0")
  let port : Int :=
    match pyGet settings ("Port") with
    | none => 5000
    | some s => (pyInt s).getD 5000
  (ip, port)

/-- A config section rendered by `jsonify`: a JSON object of its pairs. -/
def sectionToJson (s : List (String × String)) : Json :=
  Json.obj (s.map (fun p => (p.1, Json.str p.2)))

/-- `GET /api/socials` handler (lines 229-234). -/
def get_socials (cfg : Config) : Json × Nat :=
  (sectionToJson cfg.Socials, 200)

/-- `GET /api/settings` handler (lines 258-263). -/
def api_settings (cfg : Config) : Json × Nat :=
  (sectionToJson cfg.Settings, 200)

/-- `GET /api/apps` handler (lines 266-271). -/
def api_apps (cfg : Config) : Json × Nat :=
  (sectionToJson cfg.Apps, 200)

/-- `GET /api/links` handler (lines 274-279). -/
def api_links (cfg : Config) : Json × Nat :=
  (sectionToJson cfg.Links, 200)

/-- `POST /reload_settings` handler (lines 303-311): re-run `load_ini`,
then answer `status: reloaded` with 200.  An exception escaping `load_ini`
escapes the handler. -/
def reload_settings (file : IniFileState) : Except String (Json × Nat) :=
  match load_ini file with
  | Except.ok _ => Except.ok (Json.obj [("status", Json.str "reloaded")], 200)
  | Except.error e => Except.error e

/-- The HTTP status the Flask layer sends for a handler outcome: the
handler's own status, or 500 for an uncaught exception. -/
def flaskStatus {α : Type} (st : α → Nat) (r : Except String α) : Nat :=
  match r with
  | Except.ok v => st v
  | Except.error _ => 500

/-- Status projection for `(Json, status)` handler results. -/
def jsonStatus (p : Json × Nat) : Nat := p.2

/-! ### App launch (`run_app`, lines 282-300) -/

/-- `POST /run/<app_name>`: look the name up in the `Apps` section and spawn
its path.  `spawn` is the `subprocess.Popen(path, shell=True)` oracle:
`none` when the call returns (the handler does not inspect the spawned
process further — the result type carries no exit status, so the response
cannot depend on it), `some msg` when it raises an exception with message
`msg`. -/
def run_app (cfg : Config) (app_name : String) (spawn : String → Option String) :
    Json × Nat :=
  match pyGet cfg.Apps app_name with
  | some path =>
    match spawn path with
    | none => (Json.obj [("status", Json.str "ok")], 200)
    | some e => (errObj e, 500)
  | none => (errObj ("App not found"), 404)

/-! ### Weather pipeline (lines 87-226) -/

/-- Outcome of the one outbound `requests.get` call: a 200 response with its
parsed JSON body, a non-200 status code, or a `requests.RequestException`
with its message. -/
inductive ApiOutcome where
  | success (body : Json)
  | httpError (code : Nat)
  | transportError (msg : String)

/-- The environment one `/api/weather` request runs in: the `Settings`
section, the weather cache file (content and modification time, in seconds,
or `none` when absent), the current clock, and the remote API oracle. -/
structure WeatherEnv where
  settings : List (String × String)
  weatherFile : Option (String × Int)
  now : Int
  api : ApiOutcome

/-- The interval computation of `file_create` (lines 97-102):
`int(config['Settings'].get('DataRenewalInterval', 6))` with fallback 6 when
`int()` raises. -/
def renewalInterval (settings : List (String × String)) : Int :=
  match pyGet settings ("DataRenewalInterval") with
  | none => 6
  | some s => (pyInt s).getD 6

/-- `file_create` (lines 87-113): true when the file's age exceeds the
renewal interval, i.e. `now - create_date > timedelta(minutes=interval)`. -/
def file_create (settings : List (String × String)) (mtime now : Int) : Bool :=
  decide (now - mtime > renewalInterval settings * 60)

/-- `should_update_weather_file` (lines 127-136): true when the file is
absent or `file_create` reports it stale. -/
def should_update_weather_file (env : WeatherEnv) : Bool :=
  match env.weatherFile with
  | none => true
  | some (_, mtime) => file_create env.settings mtime env.now

/-- `fetch_weather_from_api` (lines 139-169).  Returns the result value and
whether an outbound request was issued.  The function is total: every
failure is returned as a mapping with an `error` key, never raised. -/
def fetch_weather_from_api (settings : List (String × String)) (api : ApiOutcome) :
    Json × Bool :=
  if pyGetD settings ("WeatherAPIKey") "" = "" then
    (errObj ("No API key provided"), false)
  else
    match api with
    | ApiOutcome.success body => (body, true)
    | ApiOutcome.httpError code =>
      (errObj ("API request failed with status code " ++ toString code), true)
    | ApiOutcome.transportError msg => (errObj msg, true)

/-- Python's `in` operator as used in `"error" not in data` (line 201):
key membership for a dict, element equality for a list, substring test for
a string; on any other operand Python raises `TypeError`. -/
def pyContains (needle : String) : Json → Except String Bool
  | Json.obj fs => Except.ok (fs.any (fun p => p.1 == needle))
  | Json.arr xs =>
    Except.ok (xs.any (fun j => match j with | Json.str s => s == needle | _ => false))
  | Json.str s => Except.ok (decide ((s.splitOn needle).length > 1))
  | _ => Except.error ("TypeError: argument of type is not iterable")

/-- `update_weather_file` (lines 172-185) composed with
`save_weather_to_file` (lines 116-124): remove the old file, then write
`json.dump(data, f, ensure_ascii=False)`; the new file state has the new
content and the current time as its modification time. -/
def update_weather_file (data : Json) (now : Int) : Option (String × Int) :=
  some (Json.dumps data, now)

/-- What one run of `get_weather_data_from_api` produces: the returned value
(or uncaught exception), whether `fetch_weather_from_api` was invoked,
whether an outbound request was issued, and the weather file afterwards. -/
structure WRes where
  data : Except String Json
  fetchCalled : Bool
  requestMade : Bool
  file : Option (String × Int)

/-- `get_weather_data_from_api` (lines 188-212): refetch-and-maybe-persist
when stale or missing, otherwise read and `json.load` the cache file. -/
def get_weather_data_from_api (env : WeatherEnv) : WRes :=
  if should_update_weather_file env then
    let fr := fetch_weather_from_api env.settings env.api
    match pyContains ("error") fr.1 with
    | Except.error e => ⟨Except.error e, true, fr.2, env.weatherFile⟩
    | Except.ok true => ⟨Except.ok fr.1, true, fr.2, env.weatherFile⟩
    | Except.ok false => ⟨Except.ok fr.1, true, fr.2, update_weather_file fr.1 env.now⟩
  else
    match env.weatherFile with
    | none => ⟨Except.error ("FileNotFoundError"), false, false, none⟩
    | some (content, _) =>
      match json_loads content with
      | some j => ⟨Except.ok j, false, false, env.weatherFile⟩
      | none =>
        ⟨Except.error ("JSONDecodeError: invalid JSON in weather file"), false, false,
          env.weatherFile⟩

/-- A response the `/api/weather` handler builds by hand: a serialized body
and a status code. -/
structure HttpText where
  body : String
  status : Nat

/-- `GET /api/weather` handler (lines 215-226):
`Response(json.dumps(data, ensure_ascii=False))`, status 200.  An exception
escaping `get_weather_data_from_api` escapes the handler. -/
def get_weather (env : WeatherEnv) : Except String HttpText :=
  match (get_weather_data_from_api env).data with
  | Except.ok j => Except.ok ⟨Json.dumps j, 200⟩
  | Except.error e => Except.error e

/-- Status projection for `HttpText`. -/
def textStatus (t : HttpText) : Nat := t.status

/-! ### YouTube snapshot reader (lines 78-84 and 246-255) -/

/-- `load_youtube_from_file` (lines 78-84): a missing file yields the empty
dict (`FileNotFoundError` is caught); any other parse failure propagates. -/
def load_youtube_from_file (file : Option String) : Except String Json :=
  match file with
  | none => Except.ok (Json.obj [])
  | some content =>
    match json_loads content with
    | some j => Except.ok j
    | none => Except.error ("JSONDecodeError: invalid JSON in youtube file")

/-- One element `dict(url=url, **data)` of the comprehension at line 253:
the `url` keyword comes first, then `data`'s fields in order.  Python
raises `TypeError` when `data` is not a mapping or already holds the key
`url`. -/
def dictUrlExtend (url : String) (data : Json) : Except String Json :=
  match data with
  | Json.obj fields =>
    if fields.any (fun p => p.1 == "url") then
      Except.error ("TypeError: got multiple values for keyword argument url")
    else Except.ok (Json.obj (("url", Json.str url) :: fields))
  | _ => Except.error ("TypeError: argument after double-star must be a mapping")

/-- The list comprehension at lines 253-254, left to right, stopping at the
first raising element. -/
def buildYoutubeList : List (String × Json) → Except String (List Json)
  | [] => Except.ok []
  | (url, data) :: rest =>
    match dictUrlExtend url data with
    | Except.error e => Except.error e
    | Except.ok r =>
      match buildYoutubeList rest with
      | Except.error e => Except.error e
      | Except.ok rs => Except.ok (r :: rs)

/-- `GET /api/youtube` handler (lines 246-255): load the snapshot, iterate
`youtube_data.items()` (an `AttributeError` on a non-dict document), build
the augmented records, answer 200. -/
def get_youtube (file : Option String) : Except String (Json × Nat) :=
  match load_youtube_from_file file with
  | Except.error e => Except.error e
  | Except.ok (Json.obj entries) =>
    match buildYoutubeList entries with
    | Except.ok recs => Except.ok (Json.arr recs, 200)
    | Except.error e => Except.error e
  | Except.ok _ => Except.error ("AttributeError: object has no attribute items")

/-- The record the spec's transformation produces for one `(url, fields)`
pair whose `fields` is an object: `fields` extended with a leading `url`
field. -/
def extendWithUrl (url : String) (data : Json) : Json :=
  match data with
  | Json.obj fields => Json.obj (("url", Json.str url) :: fields)
  | _ => data

/-! ### Helper lemmas: serializer-parser round trip -/

theorem expectChars_append (es rest : List Char) :
    expectChars es (es ++ rest) = some rest := by
  induction es with
  | nil => rfl
  | cons e es ih => simp [expectChars, ih]

theorem skipWs_not_ws (c : Char) (cs : List Char)
    (h : (c.toNat = 32 || c.toNat = 10 || c.toNat = 9 || c.toNat = 13) = false) :
    skipWs (c :: cs) = c :: cs := by
  simp only [skipWs, h]
  rfl

theorem digitChar_toNat (k : Nat) (h : k < 10) : (digitChar k).toNat = 48 + k := by
  interval_cases k <;> rfl

theorem digitChar_isDigit (k : Nat) (h : k < 10) : (digitChar k).isDigit = true := by
  interval_cases k <;> rfl

theorem digitsToNat_append (ds : List Char) (c : Char) :
    digitsToNat (ds ++ [c]) = 10 * digitsToNat ds + (c.toNat - 48) := by
  simp [digitsToNat, List.foldl_append]
  omega

theorem natDigitsGo_spec (fuel : Nat) :
    ∀ n, n < fuel →
      digitsToNat (natDigitsGo fuel n) = n ∧
      natDigitsGo fuel n ≠ [] ∧
      (∀ c ∈ natDigitsGo fuel n,
        c.isDigit = true ∧ 48 ≤ c.toNat ∧ c.toNat ≤ 57) := by
  induction fuel with
  | zero => intro n h; omega
  | succ f ih =>
    intro n h
    by_cases h10 : n < 10
    · refine ⟨?_, ?_, ?_⟩
      · simp [natDigitsGo, h10, digitsToNat, digitChar_toNat n h10]
      · simp [natDigitsGo, h10]
      · intro c hc
        simp [natDigitsGo, h10] at hc
        subst hc
        refine ⟨digitChar_isDigit n h10, ?_⟩
        rw [digitChar_toNat n h10]
        omega
    · have hdiv : n / 10 < f := by omega
      obtain ⟨h1, h2, h3⟩ := ih (n / 10) hdiv
      refine ⟨?_, ?_, ?_⟩
      · rw [natDigitsGo]
        simp only [h10, if_false]
        rw [digitsToNat_append, h1, digitChar_toNat (n % 10) (by omega)]
        omega
      · rw [natDigitsGo]
        simp [h10]
      · intro c hc
        rw [natDigitsGo] at hc
        simp only [h10, if_false, List.mem_append, List.mem_singleton] at hc
        rcases hc with hc | hc
        · exact h3 c hc
        · subst hc
          refine ⟨digitChar_isDigit _ (by omega), ?_⟩
          rw [digitChar_toNat _ (by omega)]
          omega

theorem natDigits_spec (n : Nat) :
    digitsToNat (natDigits n) = n ∧
    natDigits n ≠ [] ∧
    (∀ c ∈ natDigits n, c.isDigit = true ∧ 48 ≤ c.toNat ∧ c.toNat ≤ 57) :=
  natDigitsGo_spec (n + 1) n (Nat.lt_succ_self n)

theorem takeDigits_exact (ds rest : List Char)
    (hds : ∀ c ∈ ds, c.isDigit = true) (hrest : noDigitHead rest = true) :
    takeDigits (ds ++ rest) = (ds, rest) := by
  induction ds with
  | nil =>
    cases rest with
    | nil => rfl
    | cons c cs =>
      simp only [noDigitHead, Bool.not_eq_true'] at hrest
      simp [takeDigits, hrest]
  | cons c cs ih =>
    have hc := hds c (List.mem_cons_self _ _)
    have ihr := ih (fun d hd => hds d (List.mem_cons_of_mem _ hd))
    simp [takeDigits, hc, ihr]

theorem hexVal_hexDigit (k : Nat) (h : k < 16) : hexVal (hexDigit k) = some k := by
  interval_cases k <;> rfl

theorem singleton_append_mk (c : Char) (l : List Char) :
    String.singleton c ++ String.mk l = String.mk (c :: l) := rfl

theorem char_eq_of_toNat (c : Char) (n : Nat) (h : c.toNat = n) :
    c = Char.ofNat n := by
  rw [← h, Char.ofNat_toNat]

theorem parseStringBody_esc (cs rest : List Char) :
    parseStringBody ((escString cs).data ++ '\"' :: rest) =
      some (String.mk cs, rest) := by
  induction cs with
  | nil =>
    simp only [escString]
    rw [List.nil_append, parseStringBody.eq_def]
    simp
  | cons c cs ih =>
    have hdata : (escString (c :: cs)).data = (escChar c).data ++ (escString cs).data := by
      simp [escString, String.data_append]
    rw [hdata, List.append_assoc]
    by_cases h34 : c.toNat = 34
    · rw [char_eq_of_toNat c 34 h34,
        show (escChar (Char.ofNat 34)).data = ['\\', '\"'] from rfl]
      simp [parseStringBody, unescChar, ih, singleton_append_mk]
    · by_cases h92 : c.toNat = 92
      · rw [char_eq_of_toNat c 92 h92,
          show (escChar (Char.ofNat 92)).data = ['\\', '\\'] from rfl]
        simp [parseStringBody, unescChar, ih, singleton_append_mk]
      · by_cases h10 : c.toNat = 10
        · rw [char_eq_of_toNat c 10 h10,
            show (escChar (Char.ofNat 10)).data = ['\\', 'n'] from rfl]
          simp [parseStringBody, unescChar, ih, singleton_append_mk]
        · by_cases h9 : c.toNat = 9
          · rw [char_eq_of_toNat c 9 h9,
              show (escChar (Char.ofNat 9)).data = ['\\', 't'] from rfl]
            simp [parseStringBody, unescChar, ih, singleton_append_mk]
          · by_cases h13 : c.toNat = 13
            · rw [char_eq_of_toNat c 13 h13,
                show (escChar (Char.ofNat 13)).data = ['\\', 'r'] from rfl]
              simp [parseStringBody, unescChar, ih, singleton_append_mk]
            · by_cases h8 : c.toNat = 8
              · rw [char_eq_of_toNat c 8 h8,
                  show (escChar (Char.ofNat 8)).data = ['\\', 'b'] from rfl]
                simp [parseStringBody, unescChar, ih, singleton_append_mk]
              · by_cases h12 : c.toNat = 12
                · rw [char_eq_of_toNat c 12 h12,
                    show (escChar (Char.ofNat 12)).data = ['\\', 'f'] from rfl]
                  simp [parseStringBody, unescChar, ih, singleton_append_mk]
                · by_cases hlt : c.toNat < 32
                  · have hdataesc : (escChar c).data =
                        ['\\', 'u', '0', '0', hexDigit (c.toNat / 16),
                          hexDigit (c.toNat % 16)] := by
                      simp [escChar, h34, h92, h10, h9, h13, h8, h12, hlt,
                        String.data_append]
                    rw [hdataesc]
                    simp only [List.cons_append, List.nil_append]
                    rw [parseStringBody.eq_def]
                    have hhi : hexVal (hexDigit (c.toNat / 16)) = some (c.toNat / 16) :=
                      hexVal_hexDigit _ (by omega)
                    have hlo : hexVal (hexDigit (c.toNat % 16)) = some (c.toNat % 16) :=
                      hexVal_hexDigit _ (by omega)
                    simp [show hexVal ('0') = some 0 from rfl, hhi, hlo, ih]
                    have harith : c.toNat / 16 * 16 + c.toNat % 16 = c.toNat := by
                      omega
                    rw [harith, Char.ofNat_toNat, singleton_append_mk]
                  · have hdataesc : (escChar c).data = [c] := by
                      simp [escChar, h34, h92, h10, h9, h13, h8, h12, hlt]
                    rw [hdataesc]
                    simp only [List.cons_append, List.nil_append]
                    rw [parseStringBody.eq_def]
                    simp [h34, h92, ih, singleton_append_mk]

theorem intRepr_data_neg (n : Int) (h : n < 0) :
    (intRepr n).data = '-' :: natDigits n.natAbs := by
  simp [intRepr, h, String.data_append]

theorem intRepr_data_nonneg (n : Int) (h : ¬n < 0) :
    (intRepr n).data = natDigits n.natAbs := by
  simp [intRepr, h]

theorem dumps_head_cons (j : Json) :
    ∃ c cs2, (Json.dumps j).data = c :: cs2 ∧
      (c.toNat = 32 || c.toNat = 10 || c.toNat = 9 || c.toNat = 13) = false ∧
      c.toNat ≠ 93 ∧ c.toNat ≠ 125 := by
  cases j with
  | null => exact ⟨'n', ['u', 'l', 'l'], rfl, by decide, by decide, by decide⟩
  | bool b =>
    cases b with
    | true => exact ⟨'t', ['r', 'u', 'e'], rfl, by decide, by decide, by decide⟩
    | false => exact ⟨'f', ['a', 'l', 's', 'e'], rfl, by decide, by decide, by decide⟩
  | num n =>
    by_cases h : n < 0
    · exact ⟨'-', natDigits n.natAbs, by rw [Json.dumps, intRepr_data_neg n h],
        by decide, by decide, by decide⟩
    · obtain ⟨-, h2, h3⟩ := natDigits_spec n.natAbs
      cases hnd : natDigits n.natAbs with
      | nil => exact absurd hnd h2
      | cons c0 tl =>
        obtain ⟨-, hlo, hhi⟩ := h3 c0 (by rw [hnd]; exact List.mem_cons_self _ _)
        refine ⟨c0, tl, by rw [Json.dumps, intRepr_data_nonneg n h, hnd], ?_, ?_, ?_⟩
        · simp only [Bool.or_eq_false_iff, decide_eq_false_iff_not]
          omega
        · omega
        · omega
  | str s =>
    refine ⟨'\"', (escString s.data).data ++ ['\"'], ?_, by decide, by decide, by decide⟩
    rw [Json.dumps, dumpStr]
    simp [String.data_append]
  | arr xs =>
    refine ⟨'[', (dumpsList xs).data ++ [']'], ?_, by decide, by decide, by decide⟩
    rw [Json.dumps]
    simp [String.data_append]
  | obj fs =>
    refine ⟨'\x7b', (dumpsFields fs).data ++ ['\x7d'], ?_, by decide, by decide,
      by decide⟩
    rw [Json.dumps]
    simp [String.data_append]

theorem skipWs_dumps (j : Json) (rest : List Char) :
    skipWs ((Json.dumps j).data ++ rest) = (Json.dumps j).data ++ rest := by
  obtain ⟨c, cs2, hd, hws, -, -⟩ := dumps_head_cons j
  rw [hd, List.cons_append]
  exact skipWs_not_ws c _ hws

theorem skipWs_space (cs : List Char) : skipWs (' ' :: cs) = skipWs cs := by
  simp [skipWs]

theorem mk_data (s : String) : String.mk s.data = s := rfl

theorem needVal_pos (j : Json) : 1 ≤ needVal j := by
  cases j <;> simp [needVal]

theorem dumps_str_data (s : String) :
    (Json.dumps (Json.str s)).data = '\"' :: ((escString s.data).data ++ ['\"']) := by
  rw [Json.dumps, dumpStr]
  simp [String.data_append]

theorem dumps_arr_data (xs : List Json) :
    (Json.dumps (Json.arr xs)).data = '[' :: ((dumpsList xs).data ++ [']']) := by
  rw [Json.dumps]
  simp [String.data_append]

theorem dumps_obj_data (fs : List (String × Json)) :
    (Json.dumps (Json.obj fs)).data = '\x7b' :: ((dumpsFields fs).data ++ ['\x7d']) := by
  rw [Json.dumps]
  simp [String.data_append]

theorem dumpsList_cons2_data (x y : Json) (r : List Json) :
    (dumpsList (x :: y :: r)).data =
      (Json.dumps x).data ++ ',' :: ' ' :: (dumpsList (y :: r)).data := by
  rw [dumpsList]
  simp [String.data_append]

theorem dumpStr_data (k : String) :
    (dumpStr k).data = '\"' :: ((escString k.data).data ++ ['\"']) := by
  rw [dumpStr]
  simp [String.data_append]

theorem dumpsFields_one_data (k : String) (v : Json) :
    (dumpsFields [(k, v)]).data =
      (dumpStr k).data ++ ':' :: ' ' :: (Json.dumps v).data := by
  rw [dumpsFields]
  simp [String.data_append]

theorem dumpsFields_cons2_data (k : String) (v : Json) (q : String × Json)
    (r : List (String × Json)) :
    (dumpsFields ((k, v) :: q :: r)).data =
      (dumpStr k).data ++ ':' :: ' ' ::
        ((Json.dumps v).data ++ ',' :: ' ' :: (dumpsFields (q :: r)).data) := by
  rw [dumpsFields]
  simp [String.data_append]

theorem dumpsList_head_mid (x : Json) (xs2 : List Json) :
    ∃ mid, (dumpsList (x :: xs2)).data = (Json.dumps x).data ++ mid := by
  cases xs2 with
  | nil => exact ⟨[], by rw [dumpsList]; simp⟩
  | cons y r =>
    exact ⟨',' :: ' ' :: (dumpsList (y :: r)).data, dumpsList_cons2_data x y r⟩

theorem skipWs_dumpsList (y : Json) (r : List Json) (suffix : List Char) :
    skipWs ((dumpsList (y :: r)).data ++ suffix) =
      (dumpsList (y :: r)).data ++ suffix := by
  obtain ⟨mid, hmid⟩ := dumpsList_head_mid y r
  rw [hmid, List.append_assoc]
  exact skipWs_dumps y (mid ++ suffix)

theorem dumpsFields_head (p : String × Json) (fs2 : List (String × Json)) :
    ∃ tl2, (dumpsFields (p :: fs2)).data = '\"' :: tl2 := by
  cases fs2 with
  | nil =>
    obtain ⟨k, v⟩ := p
    rw [dumpsFields_one_data, dumpStr_data]
    exact ⟨_, rfl⟩
  | cons q r =>
    obtain ⟨k, v⟩ := p
    rw [dumpsFields_cons2_data, dumpStr_data]
    exact ⟨_, rfl⟩

theorem skipWs_dumpsFields (p : String × Json) (fs2 : List (String × Json))
    (suffix : List Char) :
    skipWs ((dumpsFields (p :: fs2)).data ++ suffix) =
      (dumpsFields (p :: fs2)).data ++ suffix := by
  obtain ⟨tl2, hf⟩ := dumpsFields_head p fs2
  rw [hf, List.cons_append]
  exact skipWs_not_ws _ _ (by decide)

theorem parse_dumps (fuel : Nat) :
    (∀ (j : Json) (rest cs : List Char), needVal j ≤ fuel → noDigitHead rest = true →
      skipWs cs = (Json.dumps j).data ++ rest →
      parseVal fuel cs = some (j, rest)) ∧
    (∀ (xs : List Json) (rest cs : List Char), xs ≠ [] → needList xs ≤ fuel →
      noDigitHead rest = true →
      skipWs cs = (dumpsList xs).data ++ ']' :: rest →
      parseArrItems fuel cs = some (xs, rest)) ∧
    (∀ (fs : List (String × Json)) (rest cs : List Char), fs ≠ [] →
      needFields fs ≤ fuel → noDigitHead rest = true →
      skipWs cs = (dumpsFields fs).data ++ '\x7d' :: rest →
      parseObjItems fuel cs = some (fs, rest)) := by
  induction fuel with
  | zero =>
    refine ⟨?_, ?_, ?_⟩
    · intro j rest cs hn
      have := needVal_pos j
      omega
    · intro xs rest cs hxs hn
      cases xs with
      | nil => exact absurd rfl hxs
      | cons x xs =>
        simp only [needList] at hn
        have := needVal_pos x
        omega
    · intro fs rest cs hfs hn
      cases fs with
      | nil => exact absurd rfl hfs
      | cons p fs =>
        simp only [needFields] at hn
        have := needVal_pos p.2
        omega
  | succ fuel ih =>
    obtain ⟨ihv, iha, iho⟩ := ih
    refine ⟨?_, ?_, ?_⟩
    · -- parseVal
      intro j rest cs hneed hrest hskip
      cases j with
      | null =>
        rw [show (Json.dumps Json.null).data = ['n', 'u', 'l', 'l'] from rfl] at hskip
        simp only [List.cons_append, List.nil_append] at hskip
        simp only [parseVal, hskip]
        simp [expectChars]
      | bool b =>
        cases b with
        | true =>
          rw [show (Json.dumps (Json.bool true)).data = ['t', 'r', 'u', 'e'] from rfl]
            at hskip
          simp only [List.cons_append, List.nil_append] at hskip
          simp only [parseVal, hskip]
          simp [expectChars]
        | false =>
          rw [show (Json.dumps (Json.bool false)).data = ['f', 'a', 'l', 's', 'e'] from
            rfl] at hskip
          simp only [List.cons_append, List.nil_append] at hskip
          simp only [parseVal, hskip]
          simp [expectChars]
      | num n =>
        obtain ⟨hval, hne, hprops⟩ := natDigits_spec n.natAbs
        have hdigits : ∀ c ∈ natDigits n.natAbs, c.isDigit = true :=
          fun c hc => (hprops c hc).1
        have htake := takeDigits_exact (natDigits n.natAbs) rest hdigits hrest
        by_cases hneg : n < 0
        · rw [show (Json.dumps (Json.num n)).data = (intRepr n).data from rfl,
            intRepr_data_neg n hneg] at hskip
          simp only [List.cons_append] at hskip
          simp only [parseVal, hskip]
          cases hnd : natDigits n.natAbs with
          | nil => exact absurd hnd hne
          | cons c0 tl =>
            rw [hnd] at htake
            simp only [List.cons_append] at htake
            have hv : digitsToNat (c0 :: tl) = n.natAbs := by rw [← hnd]; exact hval
            have hcast : -((digitsToNat (c0 :: tl) : Nat) : Int) = n := by
              rw [hv]; omega
            simp only [List.cons_append]
            rw [htake]
            simp [hcast]
        · rw [show (Json.dumps (Json.num n)).data = (intRepr n).data from rfl,
            intRepr_data_nonneg n hneg] at hskip
          cases hnd : natDigits n.natAbs with
          | nil => exact absurd hnd hne
          | cons c0 tl =>
            rw [hnd] at htake hskip
            simp only [List.cons_append] at htake hskip
            obtain ⟨hdig, hlo, hhi⟩ := hprops c0 (by rw [hnd]; exact List.mem_cons_self _ _)
            simp only [parseVal, hskip]
            have h110 : ¬(c0.toNat = 110) := by omega
            have h116 : ¬(c0.toNat = 116) := by omega
            have h102 : ¬(c0.toNat = 102) := by omega
            have h34 : ¬(c0.toNat = 34) := by omega
            have h91 : ¬(c0.toNat = 91) := by omega
            have h123 : ¬(c0.toNat = 123) := by omega
            have h45 : ¬(c0.toNat = 45) := by omega
            have hv : digitsToNat (c0 :: tl) = n.natAbs := by rw [← hnd]; exact hval
            have hcast : ((digitsToNat (c0 :: tl) : Nat) : Int) = n := by
              rw [hv]; omega
            simp [h110, h116, h102, h34, h91, h123, h45, hdig]
            rw [htake]
            simp [hcast]
      | str s =>
        rw [dumps_str_data] at hskip
        simp only [List.cons_append, List.append_assoc, List.singleton_append] at hskip
        simp only [parseVal, hskip]
        simp [parseStringBody_esc, mk_data]
      | arr xs =>
        rw [dumps_arr_data] at hskip
        simp only [List.cons_append, List.append_assoc, List.singleton_append] at hskip
        cases xs with
        | nil =>
          rw [show (dumpsList []).data = ([] : List Char) from rfl] at hskip
          simp only [List.nil_append] at hskip
          simp only [parseVal, hskip]
          simp [skipWs]
        | cons x xs2 =>
          obtain ⟨mid, hmid⟩ := dumpsList_head_mid x xs2
          obtain ⟨c0, tl, hx, hxws, hx93, hx125⟩ := dumps_head_cons x
          rw [hmid, hx] at hskip
          simp only [List.cons_append, List.append_assoc, List.nil_append] at hskip
          -- hskip : skipWs cs = '[' :: c0 :: (tl ++ (mid ++ ']' :: rest))
          simp only [parseVal, hskip]
          rw [skipWs_not_ws c0 _ hxws]
          have harr : parseArrItems fuel (c0 :: (tl ++ (mid ++ ']' :: rest))) =
              some (x :: xs2, rest) := by
            apply iha (x :: xs2) rest _ (by simp) ?_ hrest ?_
            · simp only [needVal] at hneed
              omega
            · rw [skipWs_not_ws c0 _ hxws, hmid, hx]
              simp [List.append_assoc]
          simp [hx93, harr]
      | obj fs =>
        rw [dumps_obj_data] at hskip
        simp only [List.cons_append, List.append_assoc, List.singleton_append] at hskip
        cases fs with
        | nil =>
          rw [show (dumpsFields []).data = ([] : List Char) from rfl] at hskip
          simp only [List.nil_append] at hskip
          simp only [parseVal, hskip]
          simp [skipWs]
        | cons p fs2 =>
          obtain ⟨tl2, hf⟩ := dumpsFields_head p fs2
          rw [hf] at hskip
          simp only [List.cons_append, List.append_assoc, List.nil_append] at hskip
          simp only [parseVal, hskip]
          rw [skipWs_not_ws '\"' _ (by decide)]
          have hobj : parseObjItems fuel ('\"' :: (tl2 ++ '\x7d' :: rest)) =
              some (p :: fs2, rest) := by
            apply iho (p :: fs2) rest _ (by simp) ?_ hrest ?_
            · simp only [needVal] at hneed
              omega
            · rw [skipWs_not_ws '\"' _ (by decide), hf]
              simp [List.append_assoc]
          simp [hobj]
    · -- parseArrItems
      intro xs rest cs hxs hneed hrest hskip
      cases xs with
      | nil => exact absurd rfl hxs
      | cons x xs2 =>
        cases xs2 with
        | nil =>
          rw [show (dumpsList [x]).data = (Json.dumps x).data from rfl] at hskip
          have hv : parseVal fuel cs = some (x, ']' :: rest) := by
            apply ihv x (']' :: rest) cs ?_ (by simp [noDigitHead]) hskip
            simp only [needList] at hneed
            omega
          simp only [parseArrItems, hv]
          simp [skipWs]
        | cons y r =>
          rw [dumpsList_cons2_data] at hskip
          simp only [List.cons_append, List.append_assoc, List.nil_append] at hskip
          have hv : parseVal fuel cs =
              some (x, ',' :: ' ' :: ((dumpsList (y :: r)).data ++ ']' :: rest)) := by
            apply ihv x _ cs ?_ (by simp [noDigitHead]) hskip
            simp only [needList] at hneed
            omega
          have htail : parseArrItems fuel
              (' ' :: ((dumpsList (y :: r)).data ++ ']' :: rest)) =
              some (y :: r, rest) := by
            apply iha (y :: r) rest _ (by simp) ?_ hrest ?_
            · simp only [needList] at hneed ⊢
              omega
            · rw [skipWs_space]
              exact skipWs_dumpsList y r (']' :: rest)
          simp only [parseArrItems, hv]
          simp [skipWs, htail]
    · -- parseObjItems
      intro fs rest cs hfs hneed hrest hskip
      cases fs with
      | nil => exact absurd rfl hfs
      | cons p fs2 =>
        obtain ⟨k, v⟩ := p
        cases fs2 with
        | nil =>
          rw [dumpsFields_one_data, dumpStr_data] at hskip
          simp only [List.cons_append, List.append_assoc, List.nil_append,
            List.singleton_append] at hskip
          simp only [parseObjItems, hskip]
          rw [parseStringBody_esc]
          have hv : parseVal fuel (' ' :: ((Json.dumps v).data ++ '\x7d' :: rest)) =
              some (v, '\x7d' :: rest) := by
            apply ihv v _ _ ?_ (by simp [noDigitHead]) ?_
            · simp only [needFields] at hneed
              omega
            · rw [skipWs_space]
              exact skipWs_dumps v ('\x7d' :: rest)
          simp [skipWs, hv, mk_data]
        | cons q r =>
          rw [dumpsFields_cons2_data, dumpStr_data] at hskip
          simp only [List.cons_append, List.append_assoc, List.nil_append,
            List.singleton_append] at hskip
          simp only [parseObjItems, hskip]
          rw [parseStringBody_esc]
          have hv : parseVal fuel
              (' ' :: ((Json.dumps v).data ++ ',' :: ' ' ::
                ((dumpsFields (q :: r)).data ++ '\x7d' :: rest))) =
              some (v, ',' :: ' ' :: ((dumpsFields (q :: r)).data ++ '\x7d' :: rest)) := by
            apply ihv v _ _ ?_ (by simp [noDigitHead]) ?_
            · simp only [needFields] at hneed
              omega
            · rw [skipWs_space]
              exact skipWs_dumps v _
          have htail : parseObjItems fuel
              (' ' :: ((dumpsFields (q :: r)).data ++ '\x7d' :: rest)) =
              some (q :: r, rest) := by
            apply iho (q :: r) rest _ (by simp) ?_ hrest ?_
            · simp only [needFields] at hneed ⊢
              omega
            · rw [skipWs_space]
              exact skipWs_dumpsFields q r ('\x7d' :: rest)
          simp [skipWs, hv, htail, mk_data]

theorem need_le_len : ∀ n : Nat,
    (∀ j : Json, sizeOf j ≤ n → needVal j ≤ (Json.dumps j).data.length) ∧
    (∀ xs : List Json, sizeOf xs ≤ n → xs ≠ [] →
      needList xs ≤ (dumpsList xs).data.length + 1) ∧
    (∀ fs : List (String × Json), sizeOf fs ≤ n → fs ≠ [] →
      needFields fs ≤ (dumpsFields fs).data.length + 1) := by
  intro n
  induction n with
  | zero =>
    refine ⟨?_, ?_, ?_⟩
    · intro j hsz
      cases j <;> simp at hsz
    · intro xs hsz hne
      cases xs with
      | nil => exact absurd rfl hne
      | cons x r => simp at hsz
    · intro fs hsz hne
      cases fs with
      | nil => exact absurd rfl hne
      | cons p r => simp at hsz
  | succ n ih =>
    obtain ⟨ihv, ihl, ihf⟩ := ih
    refine ⟨?_, ?_, ?_⟩
    · intro j hsz
      cases j with
      | null => simp [needVal, show (Json.dumps Json.null).data = ['n', 'u', 'l', 'l'] from rfl]
      | bool b =>
        cases b with
        | true =>
          simp [needVal,
            show (Json.dumps (Json.bool true)).data = ['t', 'r', 'u', 'e'] from rfl]
        | false =>
          simp [needVal,
            show (Json.dumps (Json.bool false)).data = ['f', 'a', 'l', 's', 'e'] from rfl]
      | num m =>
        obtain ⟨-, hne, -⟩ := natDigits_spec m.natAbs
        by_cases hneg : m < 0
        · rw [show Json.dumps (Json.num m) = intRepr m from rfl]
          rw [show (intRepr m).data = '-' :: natDigits m.natAbs from intRepr_data_neg m hneg]
          simp [needVal]
        · rw [show Json.dumps (Json.num m) = intRepr m from rfl]
          rw [intRepr_data_nonneg m hneg]
          have : 0 < (natDigits m.natAbs).length := List.length_pos.mpr hne
          simp [needVal]
          omega
      | str s =>
        rw [dumps_str_data]
        simp [needVal]
      | arr xs =>
        cases xs with
        | nil =>
          simp [needVal, needList,
            show (Json.dumps (Json.arr [])).data = ['[', ']'] from rfl]
        | cons x r =>
          rw [dumps_arr_data]
          have hsz2 : sizeOf (x :: r) ≤ n := by
            simp at hsz ⊢
            omega
          have := ihl (x :: r) hsz2 (by simp)
          simp only [needVal, List.length_cons, List.length_append]
          simp at this ⊢
          omega
      | obj fs =>
        cases fs with
        | nil =>
          simp [needVal, needFields,
            show (Json.dumps (Json.obj [])).data = ['\x7b', '\x7d'] from rfl]
        | cons p r =>
          rw [dumps_obj_data]
          have hsz2 : sizeOf (p :: r) ≤ n := by
            simp at hsz ⊢
            omega
          have := ihf (p :: r) hsz2 (by simp)
          simp only [needVal, List.length_cons, List.length_append]
          simp at this ⊢
          omega
    · intro xs hsz hne
      cases xs with
      | nil => exact absurd rfl hne
      | cons x xs2 =>
        have hszx : sizeOf x ≤ n := by
          simp at hsz
          omega
        have hx := ihv x hszx
        cases xs2 with
        | nil =>
          rw [show dumpsList [x] = Json.dumps x from rfl]
          simp only [needList]
          omega
        | cons y r =>
          have hszyr : sizeOf (y :: r) ≤ n := by
            simp at hsz ⊢
            omega
          have hyr := ihl (y :: r) hszyr (by simp)
          rw [dumpsList_cons2_data]
          simp only [needList, List.length_append, List.length_cons] at hyr ⊢
          omega
    · intro fs hsz hne
      cases fs with
      | nil => exact absurd rfl hne
      | cons p fs2 =>
        obtain ⟨k, v⟩ := p
        have hszv : sizeOf v ≤ n := by
          simp at hsz
          omega
        have hv := ihv v hszv
        cases fs2 with
        | nil =>
          rw [dumpsFields_one_data]
          simp only [needFields, List.length_append, List.length_cons]
          omega
        | cons q r =>
          have hszqr : sizeOf (q :: r) ≤ n := by
            simp at hsz ⊢
            omega
          have hqr := ihf (q :: r) hszqr (by simp)
          rw [dumpsFields_cons2_data]
          simp only [needFields, List.length_append, List.length_cons] at hqr ⊢
          omega

/-- The serializer-parser round trip: `json.loads` recovers exactly the
value `json.dumps` wrote. -/
theorem json_loads_dumps (j : Json) : json_loads (Json.dumps j) = some j := by
  unfold json_loads
  have hneed : needVal j ≤ (Json.dumps j).length + 1 := by
    have := (need_le_len (sizeOf j)).1 j (Nat.le_refl _)
    have hlen : (Json.dumps j).length = (Json.dumps j).data.length := rfl
    omega
  have hskip : skipWs (Json.dumps j).data = (Json.dumps j).data ++ [] := by
    rw [List.append_nil]
    have := skipWs_dumps j []
    rwa [List.append_nil] at this
  have h := (parse_dumps ((Json.dumps j).length + 1)).1 j [] (Json.dumps j).data
    hneed rfl hskip
  rw [h]
  simp [skipWs]

/-- When the cache is stale or missing, `fetch_weather_from_api` is invoked,
whatever then happens to its result. -/
theorem fetchCalled_of_update (env : WeatherEnv)
    (h : should_update_weather_file env = true) :
    (get_weather_data_from_api env).fetchCalled = true := by
  unfold get_weather_data_from_api
  rw [h]
  rcases hpc : pyContains ("error") (fetch_weather_from_api env.settings env.api).1 with
    e | b
  · simp [hpc]
  · cases b <;> simp [hpc]

/-- On the update path, a fetch result that is an `errObj` is returned as
the response body with status 200. -/
theorem weather_errObj_response (env : WeatherEnv) (m : String) (r : Bool)
    (h1 : should_update_weather_file env = true)
    (h2 : fetch_weather_from_api env.settings env.api = (errObj m, r)) :
    get_weather env = Except.ok ⟨Json.dumps (errObj m), 200⟩ := by
  simp [get_weather, get_weather_data_from_api, h1, h2, pyContains, errObj]

/-- The comprehension succeeds on entries whose values are all objects
without a `url` key, producing the url-extended records in order. -/
theorem buildYoutubeList_ok (entries : List (String × Json))
    (h : ∀ p ∈ entries, ∃ fs, p.2 = Json.obj fs ∧ ∀ q ∈ fs, q.1 ≠ "url") :
    buildYoutubeList entries =
      Except.ok (entries.map (fun p => extendWithUrl p.1 p.2)) := by
  induction entries with
  | nil => rfl
  | cons p rest ih =>
    obtain ⟨url, data⟩ := p
    obtain ⟨fs, hp, hnourl⟩ := h (url, data) (List.mem_cons_self _ _)
    simp only at hp
    subst hp
    have hany : fs.any (fun q => q.1 == "url") = false := by
      rw [List.any_eq_false]
      intro q hq
      simpa using hnourl q hq
    have ihr := ih (fun q hq => h q (List.mem_cons_of_mem _ hq))
    simp [buildYoutubeList, dictUrlExtend, hany, ihr, extendWithUrl]

/-! ### Claims -/

/-- Claim C1: TTL staleness gating for the weather cache.  For every
configuration whose `DataRenewalInterval` parses as `N` minutes, a request
whose backing file exists with age at most `N` minutes calls no fetch and
returns the parsed file contents, while a missing backing file or an age
strictly greater than `N` minutes makes the handler call the fetcher. -/
theorem ttl_staleness_gating (env : WeatherEnv) (N : Int)
    (hN : renewalInterval env.settings = N) :
    (∀ content mtime j, env.weatherFile = some (content, mtime) →
      env.now - mtime ≤ N * 60 → json_loads content = some j →
      (get_weather_data_from_api env).data = Except.ok j ∧
      (get_weather_data_from_api env).fetchCalled = false) ∧
    ((env.weatherFile = none ∨
        ∃ content mtime, env.weatherFile = some (content, mtime) ∧
          env.now - mtime > N * 60) →
      (get_weather_data_from_api env).fetchCalled = true) := by
  constructor
  · intro content mtime j hf hage hparse
    have hsu : should_update_weather_file env = false := by
      simp only [should_update_weather_file]
      rw [hf]
      simp only [file_create, hN, decide_eq_false_iff_not, not_lt]
      exact hage
    simp [get_weather_data_from_api, hsu, hf, hparse]
  · intro h
    have hsu : should_update_weather_file env = true := by
      rcases h with hnone | ⟨content, mtime, hf, hage⟩
      · simp [should_update_weather_file, hnone]
      · simp only [should_update_weather_file]
        rw [hf]
        simp only [file_create, hN, decide_eq_true_eq]
        exact hage
    exact fetchCalled_of_update env hsu

/-- Claim C1 witness: with `DataRenewalInterval=6` and a cache file written
3 minutes (180 s) ago, the file contents are served and no fetch happens;
written 10 minutes (600 s) ago, the fetcher is called. -/
theorem ttl_staleness_gating_witness :
    (get_weather_data_from_api
      ⟨[("DataRenewalInterval", "6")], some ("\x7b\"a\": 1\x7d", 0), 180,
        ApiOutcome.transportError "boom"⟩).data =
      Except.ok (Json.obj [("a", Json.num 1)]) ∧
    (get_weather_data_from_api
      ⟨[("DataRenewalInterval", "6")], some ("\x7b\"a\": 1\x7d", 0), 180,
        ApiOutcome.transportError "boom"⟩).fetchCalled = false ∧
    (get_weather_data_from_api
      ⟨[("DataRenewalInterval", "6")], some ("\x7b\"a\": 1\x7d", 0), 600,
        ApiOutcome.transportError "boom"⟩).fetchCalled = true := by
  have hfresh :=
    (ttl_staleness_gating
      ⟨[("DataRenewalInterval", "6")], some ("\x7b\"a\": 1\x7d", 0), 180,
        ApiOutcome.transportError "boom"⟩ 6 rfl).1
      ("\x7b\"a\": 1\x7d") 0 (Json.obj [("a", Json.num 1)]) rfl (by decide) rfl
  have hstale :=
    (ttl_staleness_gating
      ⟨[("DataRenewalInterval", "6")], some ("\x7b\"a\": 1\x7d", 0), 600,
        ApiOutcome.transportError "boom"⟩ 6 rfl).2
      (Or.inr ⟨("\x7b\"a\": 1\x7d"), 0, rfl, by decide⟩)
  exact ⟨hfresh.1, hfresh.2, hstale⟩

/-- Claim C2: atomicity of the cache on fetch failure.  Whenever the fetch
result is a mapping carrying the key `error`, `get_weather_data_from_api`
returns that mapping unchanged and the weather cache file is exactly what
it was before the call. -/
theorem fetch_failure_leaves_cache (env : WeatherEnv) (data : Json) (r : Bool)
    (h1 : should_update_weather_file env = true)
    (h2 : fetch_weather_from_api env.settings env.api = (data, r))
    (h3 : pyContains ("error") data = Except.ok true) :
    (get_weather_data_from_api env).data = Except.ok data ∧
    (get_weather_data_from_api env).file = env.weatherFile := by
  simp [get_weather_data_from_api, h1, h2, h3]

/-- Claim C2 witness: with an empty API key and a stale cached file, the
error mapping is returned and the old file content and timestamp are left
untouched. -/
theorem fetch_failure_leaves_cache_witness :
    (get_weather_data_from_api
      ⟨[], some ("\x7b\"old\": true\x7d", 0), 100000,
        ApiOutcome.transportError "unused"⟩).data =
      Except.ok (errObj ("No API key provided")) ∧
    (get_weather_data_from_api
      ⟨[], some ("\x7b\"old\": true\x7d", 0), 100000,
        ApiOutcome.transportError "unused"⟩).file =
      some ("\x7b\"old\": true\x7d", 0) := by
  exact fetch_failure_leaves_cache
    ⟨[], some ("\x7b\"old\": true\x7d", 0), 100000, ApiOutcome.transportError "unused"⟩
    (errObj ("No API key provided")) false rfl rfl rfl

/-- Claim C3: the weather fetcher result contract.  With an empty (or
missing) API key the error mapping is returned and no request is issued;
otherwise exactly one request is issued and the result is the parsed body
on HTTP 200, a status-code error mapping on any other status, and the
exception message as an error mapping on transport failure.  The fetcher
never raises: its result type is a plain value. -/
theorem fetch_weather_contract (settings : List (String × String)) (api : ApiOutcome) :
    (pyGetD settings ("WeatherAPIKey") "" = "" →
      fetch_weather_from_api settings api = (errObj ("No API key provided"), false)) ∧
    (pyGetD settings ("WeatherAPIKey") "" ≠ "" →
      (fetch_weather_from_api settings api).2 = true ∧
      (∀ body, api = ApiOutcome.success body →
        (fetch_weather_from_api settings api).1 = body) ∧
      (∀ code, api = ApiOutcome.httpError code →
        (fetch_weather_from_api settings api).1 =
          errObj ("API request failed with status code " ++ toString code)) ∧
      (∀ msg, api = ApiOutcome.transportError msg →
        (fetch_weather_from_api settings api).1 = errObj msg)) := by
  constructor
  · intro h
    simp [fetch_weather_from_api, h]
  · intro h
    refine ⟨?_, ?_, ?_, ?_⟩
    · cases api <;> simp [fetch_weather_from_api, h]
    · intro body hb
      subst hb
      simp [fetch_weather_from_api, h]
    · intro code hc
      subst hc
      simp [fetch_weather_from_api, h]
    · intro msg hm
      subst hm
      simp [fetch_weather_from_api, h]

/-- Claim C3 witness: with no key configured the error value comes back and
no request is made; with a key, a 404 upstream status becomes the
corresponding error mapping with a request made. -/
theorem fetch_weather_contract_witness :
    fetch_weather_from_api [] (ApiOutcome.httpError 404) =
      (errObj ("No API key provided"), false) ∧
    (fetch_weather_from_api [("WeatherAPIKey", "k")] (ApiOutcome.httpError 404)).1 =
      errObj ("API request failed with status code 404") ∧
    (fetch_weather_from_api [("WeatherAPIKey", "k")] (ApiOutcome.httpError 404)).2 =
      true := by
  refine ⟨(fetch_weather_contract [] (ApiOutcome.httpError 404)).1 rfl, ?_, ?_⟩
  · exact (((fetch_weather_contract [("WeatherAPIKey", "k")]
      (ApiOutcome.httpError 404)).2 (by decide)).2.2.1) 404 rfl
  · exact (((fetch_weather_contract [("WeatherAPIKey", "k")]
      (ApiOutcome.httpError 404)).2 (by decide)).1)

/-- Claim C4: cache round-trip fidelity.  After a successful fetch (result
without an `error` key) the cache file's content is exactly the payload's
JSON encoding — `json.dump` with `ensure_ascii=False`, so non-ASCII stays
unescaped — and a later fresh-window `GET /api/weather` backed by that file
answers 200 with that same encoding as its body. -/
theorem cache_round_trip (env : WeatherEnv) (data : Json) (r : Bool)
    (h1 : should_update_weather_file env = true)
    (h2 : fetch_weather_from_api env.settings env.api = (data, r))
    (h3 : pyContains ("error") data = Except.ok false) :
    (get_weather_data_from_api env).file = some (Json.dumps data, env.now) ∧
    ∀ env2 : WeatherEnv, env2.weatherFile = (get_weather_data_from_api env).file →
      should_update_weather_file env2 = false →
      get_weather env2 = Except.ok ⟨Json.dumps data, 200⟩ := by
  have hfile : (get_weather_data_from_api env).file = some (Json.dumps data, env.now) := by
    simp [get_weather_data_from_api, h1, h2, h3, update_weather_file]
  refine ⟨hfile, ?_⟩
  intro env2 hf2 hsu2
  rw [hfile] at hf2
  simp [get_weather, get_weather_data_from_api, hsu2, hf2, json_loads_dumps]

/-- Claim C4 witness: a payload holding the city name `Łódź` is written
byte-for-byte with the diacritics unescaped, and a later fresh-window
request returns that very string as its body. -/
theorem cache_round_trip_witness :
    (get_weather_data_from_api
      ⟨[("WeatherAPIKey", "k")], none, 50,
        ApiOutcome.success (Json.obj [("city", Json.str "Łódź")])⟩).file =
      some ("\x7b\"city\": \"Łódź\"\x7d", 50) ∧
    get_weather
      ⟨[("DataRenewalInterval", "6")], some ("\x7b\"city\": \"Łódź\"\x7d", 50), 50,
        ApiOutcome.transportError "unused"⟩ =
      Except.ok ⟨"\x7b\"city\": \"Łódź\"\x7d", 200⟩ := by
  have h := cache_round_trip
    ⟨[("WeatherAPIKey", "k")], none, 50,
      ApiOutcome.success (Json.obj [("city", Json.str "Łódź")])⟩
    (Json.obj [("city", Json.str "Łódź")]) true rfl rfl rfl
  exact ⟨h.1,
    h.2 ⟨[("DataRenewalInterval", "6")], some ("\x7b\"city\": \"Łódź\"\x7d", 50), 50,
      ApiOutcome.transportError "unused"⟩ (by rw [h.1]; rfl) rfl⟩

/-- Counterexample for C5: on the snapshot mapping whose single pair is
`("http://x", record with field url = "y")`, the handler raises `TypeError`
(`dict(url=url, **data)` receives the keyword `url` twice) instead of
returning a one-record list, so the claim fails as stated. -/
theorem youtube_url_key_counterexample :
    json_loads ("\x7b\"http://x\": \x7b\"url\": \"y\"\x7d\x7d") =
      some (Json.obj [("http://x", Json.obj [("url", Json.str "y")])]) ∧
    get_youtube (some ("\x7b\"http://x\": \x7b\"url\": \"y\"\x7d\x7d")) =
      Except.error ("TypeError: got multiple values for keyword argument url") := by
  exact ⟨rfl, rfl⟩

/-- Claim C5 (amended): for every snapshot mapping each of whose values is
a JSON object that does not itself hold a key named `url`, `GET
/api/youtube` returns one record per `(url, fields)` pair — `fields`
extended with a `url` field holding that url — in the source mapping's
iteration order; when the file is absent the result is the empty list. -/
theorem youtube_transformation (content : String) (entries : List (String × Json))
    (hparse : json_loads content = some (Json.obj entries))
    (hfields : ∀ p ∈ entries, ∃ fs, p.2 = Json.obj fs ∧ ∀ q ∈ fs, q.1 ≠ "url") :
    get_youtube (some content) =
      Except.ok (Json.arr (entries.map (fun p => extendWithUrl p.1 p.2)), 200) ∧
    get_youtube none = Except.ok (Json.arr [], 200) := by
  refine ⟨?_, rfl⟩
  simp [get_youtube, load_youtube_from_file, hparse, buildYoutubeList_ok entries hfields]

/-- Claim C5 witness: the spec's test vector — the snapshot mapping
`http://x` to a record with only a `title` field yields exactly the
one-element list with `url` and `title`. -/
theorem youtube_transformation_witness :
    get_youtube (some ("\x7b\"http://x\": \x7b\"title\": \"T\"\x7d\x7d")) =
      Except.ok
        (Json.arr [Json.obj [("url", Json.str "http://x"), ("title", Json.str "T")]],
          200) := by
  have h := (youtube_transformation ("\x7b\"http://x\": \x7b\"title\": \"T\"\x7d\x7d")
    [("http://x", Json.obj [("title", Json.str "T")])] rfl
    (by
      intro p hp
      rw [List.mem_singleton] at hp
      subst hp
      exact ⟨[("title", Json.str "T")], rfl, by decide⟩)).1
  exact h

/-- Claim C6: app-launch status mapping.  An unregistered name answers 404
with an error body; a registered name whose spawn raises answers 500 with
the exception message; a registered name whose spawn returns answers 200
with `status: ok` (the spawn oracle carries no exit information, so the
response never depends on the spawned process). -/
theorem run_app_status_mapping (cfg : Config) (name : String)
    (spawn : String → Option String) :
    (pyGet cfg.Apps name = none →
      run_app cfg name spawn = (errObj ("App not found"), 404)) ∧
    (∀ path, pyGet cfg.Apps name = some path → spawn path = none →
      run_app cfg name spawn = (Json.obj [("status", Json.str "ok")], 200)) ∧
    (∀ path e, pyGet cfg.Apps name = some path → spawn path = some e →
      run_app cfg name spawn = (errObj e, 500)) := by
  refine ⟨?_, ?_, ?_⟩
  · intro h
    simp [run_app, h]
  · intro path hp hs
    simp [run_app, hp, hs]
  · intro path e hp hs
    simp [run_app, hp, hs]

/-- Claim C6 witness: a registry holding only `app1` answers 200/ok for
`app1` under a non-raising spawn, 500 with the message under a raising
spawn, and 404 for an unknown name. -/
theorem run_app_status_mapping_witness :
    run_app ⟨[], [("app1", "calc.exe")], [], []⟩ ("app1") (fun _ => none) =
      (Json.obj [("status", Json.str "ok")], 200) ∧
    run_app ⟨[], [("app1", "calc.exe")], [], []⟩ ("app1") (fun _ => some "bad path") =
      (errObj ("bad path"), 500) ∧
    run_app ⟨[], [("app1", "calc.exe")], [], []⟩ ("nonexistent_app") (fun _ => none) =
      (errObj ("App not found"), 404) := by
  refine ⟨?_, ?_, ?_⟩
  · exact (run_app_status_mapping ⟨[], [("app1", "calc.exe")], [], []⟩ ("app1")
      (fun _ => none)).2.1 ("calc.exe") rfl rfl
  · exact (run_app_status_mapping ⟨[], [("app1", "calc.exe")], [], []⟩ ("app1")
      (fun _ => some "bad path")).2.2 ("calc.exe") ("bad path") rfl rfl
  · exact (run_app_status_mapping ⟨[], [("app1", "calc.exe")], [], []⟩
      ("nonexistent_app") (fun _ => none)).1 rfl

/-- Counterexample for C7: a fetch outcome on which `GET /api/weather` does
not respond 200 — a 200 upstream response whose parsed body is the bare
number 3 makes `"error" not in data` raise `TypeError` (an int is not
iterable), so the handler yields HTTP 500. -/
theorem weather_status_counterexample :
    should_update_weather_file
      ⟨[("WeatherAPIKey", "k")], none, 0, ApiOutcome.success (Json.num 3)⟩ = true ∧
    flaskStatus textStatus
      (get_weather
        ⟨[("WeatherAPIKey", "k")], none, 0, ApiOutcome.success (Json.num 3)⟩) =
      500 := by
  exact ⟨rfl, rfl⟩

/-- Claim C7 (amended): every upstream-API failure — empty key, non-200
upstream status, transport error — yields HTTP 200 with the failure carried
only as an `error` key in the JSON body; more generally every fetch outcome
on which the `error`-membership test does not itself raise (every JSON
container body) yields HTTP 200.  Only a successful fetch whose parsed body
is a bare number, boolean or null escapes as a `TypeError`. -/
theorem weather_error_as_data (env : WeatherEnv) :
    (should_update_weather_file env = true →
      (pyGetD env.settings ("WeatherAPIKey") "" = "" ∨
        (∃ code, env.api = ApiOutcome.httpError code) ∨
        (∃ msg, env.api = ApiOutcome.transportError msg)) →
      ∃ m, get_weather env = Except.ok ⟨Json.dumps (errObj m), 200⟩) ∧
    (∀ b : Bool, should_update_weather_file env = true →
      pyContains ("error") (fetch_weather_from_api env.settings env.api).1 =
        Except.ok b →
      flaskStatus textStatus (get_weather env) = 200) := by
  constructor
  · intro h1 hfail
    by_cases hkey : pyGetD env.settings ("WeatherAPIKey") "" = ""
    · exact ⟨"No API key provided",
        weather_errObj_response env ("No API key provided") false h1
          (by simp [fetch_weather_from_api, hkey])⟩
    · rcases hfail with hkey2 | ⟨code, hc⟩ | ⟨msg, hm⟩
      · exact absurd hkey2 hkey
      · exact ⟨"API request failed with status code " ++ toString code,
          weather_errObj_response env _ true h1
            (by simp [fetch_weather_from_api, hkey, hc])⟩
      · exact ⟨msg,
          weather_errObj_response env msg true h1
            (by simp [fetch_weather_from_api, hkey, hm])⟩
  · intro b h1 hpc
    unfold get_weather get_weather_data_from_api
    rw [h1]
    simp only [if_true]
    rw [hpc]
    cases b <;> rfl

/-- Claim C7 witness: with no API key and a would-be 500 upstream, the
endpoint answers HTTP 200; and the error-mapping data path of a transport
failure also answers 200. -/
theorem weather_error_as_data_witness :
    flaskStatus textStatus
      (get_weather ⟨[], none, 0, ApiOutcome.httpError 500⟩) = 200 ∧
    flaskStatus textStatus
      (get_weather
        ⟨[("WeatherAPIKey", "k")], none, 0, ApiOutcome.transportError "timeout"⟩) =
      200 := by
  constructor
  · obtain ⟨m, hm⟩ :=
      (weather_error_as_data ⟨[], none, 0, ApiOutcome.httpError 500⟩).1 rfl (Or.inl rfl)
    rw [hm]
    rfl
  · exact (weather_error_as_data
      ⟨[("WeatherAPIKey", "k")], none, 0, ApiOutcome.transportError "timeout"⟩).2
      true rfl rfl

/-- Claim C8: config absence defaults.  A missing `config.ini` loads
without failure into four empty sections, every config-derived endpoint
then returns the empty JSON object with status 200, and the startup block
still binds `0.0.0.0:5000`. -/
theorem config_absence_defaults :
    load_ini IniFileState.absent =
      Except.ok ⟨⟨[], [], [], []⟩, "youtube_data.json", "weather_data.json"⟩ ∧
    get_socials ⟨[], [], [], []⟩ = (Json.obj [], 200) ∧
    api_settings ⟨[], [], [], []⟩ = (Json.obj [], 200) ∧
    api_apps ⟨[], [], [], []⟩ = (Json.obj [], 200) ∧
    api_links ⟨[], [], [], []⟩ = (Json.obj [], 200) ∧
    serverBind [] = ("0.0.0.0", 5000) := by
  exact ⟨rfl, rfl, rfl, rfl, rfl, rfl⟩

/-- Counterexample for C9: a present configuration file whose content
`configparser` cannot parse (for example a line before any section header,
which raises `MissingSectionHeaderError`) makes `load_ini` raise, so
`POST /reload_settings` answers 500, not 200 — the claim quantifies over
arbitrary content and so fails as stated. -/
theorem reload_malformed_counterexample :
    flaskStatus jsonStatus
      (reload_settings (IniFileState.malformed ("MissingSectionHeaderError"))) =
      500 := by
  exact rfl

/-- Claim C9 (amended): for every state of the configuration file that is
absent or parses as well-formed INI, `POST /reload_settings` re-reads it
and responds HTTP 200. -/
theorem reload_settings_ok (file : IniFileState)
    (h : file = IniFileState.absent ∨
      ∃ sections, file = IniFileState.wellFormed sections) :
    flaskStatus jsonStatus (reload_settings file) = 200 := by
  rcases h with h | ⟨sections, h⟩ <;> subst h <;> rfl

/-- Claim C9 witness: reloading with the file absent, and with a
well-formed file holding one `Apps` entry, both answer 200. -/
theorem reload_settings_ok_witness :
    flaskStatus jsonStatus (reload_settings IniFileState.absent) = 200 ∧
    flaskStatus jsonStatus
      (reload_settings (IniFileState.wellFormed [("Apps", [("a", "b")])])) = 200 := by
  exact ⟨reload_settings_ok IniFileState.absent (Or.inl rfl),
    reload_settings_ok (IniFileState.wellFormed [("Apps", [("a", "b")])])
      (Or.inr ⟨[("Apps", [("a", "b")])], rfl⟩)⟩

/-- Counterexample for C10: the fresh branch's read-and-parse is not the
only unguarded path of the weather pipeline — on the update path a 200
upstream response whose parsed body is the bare boolean `true` makes the
`error`-membership test raise `TypeError`, an unhandled exception outside
the fresh branch. -/
theorem fresh_only_gap_counterexample :
    should_update_weather_file
      ⟨[("WeatherAPIKey", "key")], none, 5, ApiOutcome.success (Json.bool true)⟩ =
      true ∧
    (get_weather_data_from_api
      ⟨[("WeatherAPIKey", "key")], none, 5, ApiOutcome.success (Json.bool true)⟩).data =
      Except.error ("TypeError: argument of type is not iterable") := by
  exact ⟨rfl, rfl⟩

/-- Claim C10 (amended): when the cache file is fresh but holds invalid
JSON, the pipeline raises an unhandled decode exception without refetching;
a fresh file with valid JSON is returned parsed; and on the update path the
pipeline never raises except through the `error`-membership test itself —
so the fresh-branch parse and that membership test are the only paths not
guarded by the error-key convention. -/
theorem weather_unguarded_paths :
    (∀ env : WeatherEnv, ∀ content mtime,
      env.weatherFile = some (content, mtime) →
      should_update_weather_file env = false →
      json_loads content = none →
      (get_weather_data_from_api env).data =
        Except.error ("JSONDecodeError: invalid JSON in weather file") ∧
      (get_weather_data_from_api env).fetchCalled = false) ∧
    (∀ env : WeatherEnv, ∀ content mtime j,
      env.weatherFile = some (content, mtime) →
      should_update_weather_file env = false →
      json_loads content = some j →
      (get_weather_data_from_api env).data = Except.ok j) ∧
    (∀ env : WeatherEnv, ∀ b : Bool,
      should_update_weather_file env = true →
      pyContains ("error") (fetch_weather_from_api env.settings env.api).1 =
        Except.ok b →
      ∃ j, (get_weather_data_from_api env).data = Except.ok j) := by
  refine ⟨?_, ?_, ?_⟩
  · intro env content mtime hf hsu hbad
    simp [get_weather_data_from_api, hsu, hf, hbad]
  · intro env content mtime j hf hsu hgood
    simp [get_weather_data_from_api, hsu, hf, hgood]
  · intro env b hsu hpc
    refine ⟨(fetch_weather_from_api env.settings env.api).1, ?_⟩
    unfold get_weather_data_from_api
    rw [hsu]
    simp only [if_true]
    rw [hpc]
    cases b <;> rfl

/-- Claim C10 witness: a fresh cache file containing `notjson` makes the
pipeline raise a decode error with no fetch, while a fresh file containing
valid JSON is served parsed. -/
theorem weather_unguarded_paths_witness :
    (get_weather_data_from_api
      ⟨[], some ("notjson", 0), 100, ApiOutcome.transportError "unused"⟩).data =
      Except.error ("JSONDecodeError: invalid JSON in weather file") ∧
    (get_weather_data_from_api
      ⟨[], some ("notjson", 0), 100, ApiOutcome.transportError "unused"⟩).fetchCalled =
      false ∧
    (get_weather_data_from_api
      ⟨[], some ("\x7b\"t\": 2\x7d", 0), 100, ApiOutcome.transportError "unused"⟩).data =
      Except.ok (Json.obj [("t", Json.num 2)]) := by
  have h1 := weather_unguarded_paths.1
    ⟨[], some ("notjson", 0), 100, ApiOutcome.transportError "unused"⟩
    ("notjson") 0 rfl rfl rfl
  have h2 := weather_unguarded_paths.2.1
    ⟨[], some ("\x7b\"t\": 2\x7d", 0), 100, ApiOutcome.transportError "unused"⟩
    ("\x7b\"t\": 2\x7d") 0 (Json.obj [("t", Json.num 2)]) rfl rfl rfl
  exact ⟨h1.1, h1.2, h2⟩

end QLauncher
